import Mathlib

set_option maxRecDepth 4000

/-!
Verification of the nl-verkeer ingestion/query pipeline.

Shallow embedding of the TypeScript sources:
  - src/app/api/events/route.ts  (cache orchestrator, filter/sort query engine)
  - src/lib/ndw.ts               (DATEX parser, travel-time jam detector,
                                  measurement-site resolver)
  - src/lib/anwb.ts              (scrape extractor)
  - src/lib/x.ts                 (external enrichment)

JavaScript `number` values are modelled as `ℚ` (all claim-relevant arithmetic
is exact decimal arithmetic); a possibly-`undefined`/`NaN` number is
`Option ℚ`.  `Math.round` is `jsRound` below (round half towards +∞,
which is JavaScript's semantics).  JS `Array.prototype.sort` (stable since
ES2019) is modelled by `List.mergeSort` on the boolean relation
"comparator result ≤ 0".
-/

namespace NlVerkeer

/-- `'A' | 'N'` from src/lib/types.ts. -/
inductive RoadType where
  | A
  | N
deriving DecidableEq, Repr

/-- `'jam' | 'accident'` from src/lib/types.ts. -/
inductive EventCategory where
  | jam
  | accident
deriving DecidableEq, Repr

/-- `TrafficEvent` from src/lib/types.ts.  JS `from`/`to` are renamed
`fromLoc`/`toLoc` (Lean keyword clash); numeric fields are `ℚ`,
optional fields `Option _`. -/
structure TrafficEvent where
  id : String
  roadType : RoadType
  roadNumber : ℚ
  roadCode : String
  direction : Option String := none
  fromLoc : Option String := none
  toLoc : Option String := none
  locationText : Option String := none
  lengthKm : Option ℚ := none
  delayMin : Option ℚ := none
  category : EventCategory
  eventTypeRaw : Option String := none
  reasonText : Option String := none
  externalInfoText : Option String := none
  externalInfoUrl : Option String := none
  externalInfoUpdated : Option String := none
  lastUpdated : String := ""
  sourceUrl : String := ""
deriving DecidableEq, Repr

/-- The three values accepted for the `sort` query parameter. -/
inductive SortKey where
  | delay
  | length
  | road
deriving DecidableEq, Repr

/-- `EventsQuery` from src/lib/types.ts (all fields optional; an absent
`road` also covers the `Number(roadStr)`-was-`NaN` case, which the route
treats as absent via `Number.isFinite`). -/
structure EventsQuery where
  type : Option RoadType := none
  road : Option ℚ := none
  category : Option EventCategory := none
  sort : Option SortKey := none
deriving DecidableEq, Repr

/-- JavaScript `Math.round`: round half towards positive infinity. -/
def jsRound (q : ℚ) : ℤ := ⌊q + 1 / 2⌋

/-- `typeof v === 'number' ? v : -1` — the missing-value default used by
the route's comparators. -/
def numOr (v : Option ℚ) : ℚ := v.getD (-1)

/-- The `sortKey === 'road'` branch of the comparator in `applyFilterSort`
(route.ts lines 40-49), returning the JS comparator's numeric result. -/
def jsCompareRoad (a b : TrafficEvent) : ℚ :=
  if a.roadType ≠ b.roadType then (if a.roadType = RoadType.A then -1 else 1)
  else if a.roadNumber ≠ b.roadNumber then a.roadNumber - b.roadNumber
  else if numOr a.delayMin ≠ numOr b.delayMin then numOr b.delayMin - numOr a.delayMin
  else numOr b.lengthKm - numOr a.lengthKm

/-- The full comparator passed to `sort` in `applyFilterSort`
(route.ts lines 39-57). -/
def jsCompare (k : SortKey) (a b : TrafficEvent) : ℚ :=
  match k with
  | .road => jsCompareRoad a b
  | .delay => numOr b.delayMin - numOr a.delayMin
  | .length => numOr b.lengthKm - numOr a.lengthKm

/-- Stable-sort relation induced by the JS comparator: `a` may stay before
`b` exactly when the comparator does not mandate swapping them. -/
def jsSortLe (k : SortKey) (a b : TrafficEvent) : Bool :=
  decide (jsCompare k a b ≤ 0)

/-- `const sortKey = q.sort ?? 'delay'` (route.ts line 38). -/
def sortKeyOf (q : EventsQuery) : SortKey := q.sort.getD SortKey.delay

/-- The three conjunctive filters of `applyFilterSort`
(route.ts lines 33-36). -/
def filterStage (events : List TrafficEvent) (q : EventsQuery) : List TrafficEvent :=
  let out := events
  let out := match q.type with
    | some t => out.filter (fun e => decide (e.roadType = t))
    | none => out
  let out := match q.road with
    | some r => out.filter (fun e => decide (e.roadNumber = r))
    | none => out
  let out := match q.category with
    | some c => out.filter (fun e => decide (e.category = c))
    | none => out
  out

/-- `applyFilterSort` (route.ts lines 32-60): conjunctive filtering over the
provided fields, then a stable sort by the selected comparator. -/
def applyFilterSort (events : List TrafficEvent) (q : EventsQuery) : List TrafficEvent :=
  (filterStage events q).mergeSort (jsSortLe (sortKeyOf q))

/-! Order-theoretic characterisation of the comparators, used to discharge
the transitivity/totality side conditions of `List.mergeSort`. -/

/-- Rank used by the road comparator: A-roads sort before N-roads. -/
def rankRT : RoadType → ℚ
  | .A => 0
  | .N => 1

/-- Sort key of the road order as a quadruple (road-type rank, road number,
negated delay, negated length). -/
def roadKeyQ (e : TrafficEvent) : ℚ × ℚ × ℚ × ℚ :=
  (rankRT e.roadType, e.roadNumber, -(numOr e.delayMin), -(numOr e.lengthKm))

/-- Lexicographic (non-strict) order on rational quadruples. -/
def lex4Le (x y : ℚ × ℚ × ℚ × ℚ) : Prop :=
  x.1 < y.1 ∨ (x.1 = y.1 ∧
    (x.2.1 < y.2.1 ∨ (x.2.1 = y.2.1 ∧
      (x.2.2.1 < y.2.2.1 ∨ (x.2.2.1 = y.2.2.1 ∧ x.2.2.2 ≤ y.2.2.2)))))

/-- The `type` filter predicate of the route (true when the query leaves
the field unconstrained). -/
def matchesType (q : EventsQuery) (e : TrafficEvent) : Bool :=
  match q.type with
  | none => true
  | some t => decide (e.roadType = t)

/-- The `road` filter predicate of the route. -/
def matchesRoad (q : EventsQuery) (e : TrafficEvent) : Bool :=
  match q.road with
  | none => true
  | some r => decide (e.roadNumber = r)

/-- The `category` filter predicate of the route. -/
def matchesCat (q : EventsQuery) (e : TrafficEvent) : Bool :=
  match q.category with
  | none => true
  | some c => decide (e.category = c)

/-- The road order as the specification states it: road type A before N,
then ascending road number, then descending delay, then descending length,
a missing numeric field counting as `-1`. -/
def roadSpecLe (a b : TrafficEvent) : Prop :=
  (a.roadType = RoadType.A ∧ b.roadType = RoadType.N) ∨
  (a.roadType = b.roadType ∧
    (a.roadNumber < b.roadNumber ∨ (a.roadNumber = b.roadNumber ∧
      (numOr b.delayMin < numOr a.delayMin ∨ (numOr a.delayMin = numOr b.delayMin ∧
        numOr b.lengthKm ≤ numOr a.lengthKm)))))

/-- Example event: A8 with delay 20 (spec example for the road sort). -/
def evA8d20 : TrafficEvent :=
  { id := "a8-20", roadType := RoadType.A, roadNumber := 8, roadCode := "A8",
    delayMin := some 20, category := EventCategory.jam }

/-- Example event: A8 with delay 5. -/
def evA8d5 : TrafficEvent :=
  { id := "a8-5", roadType := RoadType.A, roadNumber := 8, roadCode := "A8",
    delayMin := some 5, category := EventCategory.jam }

/-- Example event: N35 with delay 99. -/
def evN35d99 : TrafficEvent :=
  { id := "n35-99", roadType := RoadType.N, roadNumber := 35, roadCode := "N35",
    delayMin := some 99, category := EventCategory.jam }

/-- Concrete event used for tie-stability checks. -/
def evTie1 : TrafficEvent :=
  { id := "tie-1", roadType := RoadType.A, roadNumber := 2, roadCode := "A2",
    delayMin := some 10, lengthKm := some 3, category := EventCategory.jam }

/-- Second tied event (same road, delay and length as `evTie1`). -/
def evTie2 : TrafficEvent :=
  { id := "tie-2", roadType := RoadType.A, roadNumber := 2, roadCode := "A2",
    delayMin := some 10, lengthKm := some 3, category := EventCategory.accident }

/-! Numeric string conversion (`Number(...)` in JS), restricted to
optional-sign decimal literals.  Strings that are not of this shape yield
`NaN` in JS and `none` here; an empty / all-whitespace string yields `0`
exactly as `Number('')` does. -/

/-- Value of a list of decimal digit characters. -/
def digitsVal (ds : List Char) : ℕ :=
  ds.foldl (fun acc c => acc * 10 + (c.toNat - 48)) 0

/-- Unsigned decimal literal, with an optional fractional part. -/
def parseDecCore (l : List Char) : Option ℚ :=
  let intPart := l.takeWhile Char.isDigit
  let rest := l.dropWhile Char.isDigit
  match rest with
  | [] => if intPart.isEmpty then none else some (digitsVal intPart : ℚ)
  | '.' :: frac =>
    if frac.all Char.isDigit && !(intPart.isEmpty && frac.isEmpty) then
      some ((digitsVal intPart : ℚ) + (digitsVal frac : ℚ) / ((10 : ℚ) ^ frac.length))
    else none
  | _ => none

/-- Optionally signed decimal literal. -/
def parseSignedDec (l : List Char) : Option ℚ :=
  match l with
  | '-' :: rest => (parseDecCore rest).map (fun q => -q)
  | '+' :: rest => parseDecCore rest
  | _ => parseDecCore l

/-- JS `Number(string)` on decimal literals (`none` models `NaN`). -/
def jsNumber (s : String) : Option ℚ :=
  let t := s.trim
  if t.isEmpty then some 0 else parseSignedDec t.toList

/-! External enrichment (src/lib/x.ts).  The network-bound
`getRwsLatestTweets` call (which internally resolves the account's user id
across both API base URLs) enters the model as an `Except` parameter;
`Date.parse` enters as a `dateParse` environment function. -/

/-- `ExternalPost` from src/lib/x.ts. -/
structure ExternalPost where
  id : String
  text : String
  createdAt : Option String
  url : String
deriving DecidableEq, Repr

/-- One tweet as cleaned by `getRwsLatestTweets`. -/
structure Tweet where
  id : String
  text : String
  created_at : Option String
deriving DecidableEq, Repr

/-- `CacheEntry` from src/lib/x.ts (per-road-code post cache). -/
structure CacheEntry where
  fetchedAt : ℤ
  post : Option ExternalPost
deriving DecidableEq, Repr

/-- The module-level mutable state of src/lib/x.ts:
`__nlVerkeerXCache` and `__nlVerkeerXLastError`. -/
structure XState where
  xCache : List (String × CacheEntry)
  lastError : Option (ℤ × String)
deriving DecidableEq, Repr

/-- `CACHE_TTL_MS` of src/lib/x.ts (5 minutes). -/
def X_CACHE_TTL_MS : ℤ := 5 * 60 * 1000

/-- `normalizeRoadCode` (x.ts): trim, upper-case, strip all whitespace. -/
def normalizeRoadCode (roadCode : String) : String :=
  String.mk ((roadCode.trim.toUpper).toList.filter (fun c => !c.isWhitespace))

/-- The `/^[AN]\d{1,3}$/` shape test of x.ts. -/
def roadShapeTest (s : String) : Bool :=
  match s.toList with
  | [] => false
  | c :: rest =>
    (c == 'A' || c == 'N') && !rest.isEmpty && decide (rest.length ≤ 3) &&
      rest.all Char.isDigit

/-- JS regex `\w` (word character), ASCII fragment. -/
def isWordChar (c : Char) : Bool := c.isAlpha || c.isDigit || c == '_'

/-- Case-insensitive character comparison (the regex `i` flag). -/
def charEqCI (a b : Char) : Bool := a.toUpper == b.toUpper

/-- Match the digit string `num` literally, then require a trailing `\b`
(next character absent or not a word character). -/
def matchDigitsThenBoundary : List Char → List Char → Bool
  | [], rest =>
    match rest with
    | [] => true
    | c :: _ => !isWordChar c
  | d :: ds, c :: rest => c == d && matchDigitsThenBoundary ds rest
  | _ :: _, [] => false

/-- Match `\s*[- ]?\s*` followed by `num` and a trailing `\b`.  The greedy
whitespace run plus the optional single dash/space is equivalent to:
skip whitespace, optionally skip one dash, skip whitespace. -/
def matchGapThenNum (num : List Char) (l : List Char) : Bool :=
  let l1 := l.dropWhile Char.isWhitespace
  match l1 with
  | '-' :: rest => matchDigitsThenBoundary num (rest.dropWhile Char.isWhitespace)
  | _ => matchDigitsThenBoundary num l1

/-- Scan for the x.ts `roadRegex` pattern
(`\b TYPE \s*[- ]?\s* NUM \b`, case-insensitive) anywhere in the text.
`prev` is the character before the current position (boundary check). -/
def roadRegexFind (ty : Char) (num : List Char) : Option Char → List Char → Bool
  | _, [] => false
  | prev, c :: rest =>
    ((match prev with | none => true | some p => !isWordChar p) &&
       charEqCI c ty && matchGapThenNum num rest) ||
    roadRegexFind ty num (some c) rest

/-- `roadRegex(rc).test(text)` from x.ts. -/
def roadRegexTest (rc : String) (text : String) : Bool :=
  match rc.toList with
  | [] => false
  | ty :: num => roadRegexFind ty num none text.toList

/-- `Map.get` on the per-road post cache. -/
def lookupCacheEntry (cache : List (String × CacheEntry)) (rc : String) : Option CacheEntry :=
  (cache.find? (fun p => p.1 == rc)).map (fun p => p.2)

/-- `Map.set` on the per-road post cache (overwrite semantics). -/
def setCacheEntry (cache : List (String × CacheEntry)) (rc : String) (e : CacheEntry) :
    List (String × CacheEntry) :=
  (rc, e) :: cache.filter (fun p => !(p.1 == rc))

/-- The `try`/`catch` body of `fetchRwsExternalInfoForRoad` (x.ts lines
156-185): on success, pick the first recent tweet naming the road and cache
it; on failure, record the error, cache `undefined`, and return nothing. -/
def xTryFetch (rc : String) (now : ℤ) (tweetsResult : Except String (List Tweet))
    (dateParse : String → Option ℤ) (st : XState) : Option ExternalPost × XState :=
  match tweetsResult with
  | .ok tweets =>
    let cutoff := now - 60 * 60 * 1000
    let hit := tweets.find? (fun t =>
      roadRegexTest rc t.text &&
        (match t.created_at with
         | none => false
         | some ca =>
           match dateParse ca with
           | none => false
           | some ts => decide (cutoff ≤ ts)))
    let post := hit.map (fun h =>
      { id := h.id, text := h.text, createdAt := h.created_at,
        url := "https://x.com/RWSverkeersinfo/status/" ++ h.id })
    (post, { st with xCache := setCacheEntry st.xCache rc ⟨now, post⟩ })
  | .error msg =>
    (none, { xCache := setCacheEntry st.xCache rc ⟨now, none⟩,
             lastError := some (now, msg) })

/-- `fetchRwsExternalInfoForRoad` (x.ts lines 144-186). -/
def fetchRwsExternalInfoForRoad (token : Option String) (roadCode : String) (now : ℤ)
    (tweetsResult : Except String (List Tweet)) (dateParse : String → Option ℤ)
    (st : XState) : Option ExternalPost × XState :=
  match token with
  | none => (none, st)
  | some _ =>
    let rc := normalizeRoadCode roadCode
    if !roadShapeTest rc then (none, st)
    else
      match lookupCacheEntry st.xCache rc with
      | some cached =>
        if now - cached.fetchedAt < X_CACHE_TTL_MS then (cached.post, st)
        else xTryFetch rc now tweetsResult dateParse st
      | none => xTryFetch rc now tweetsResult dateParse st

/-- `getXLastError` (x.ts lines 188-190). -/
def getXLastError (st : XState) : Option (ℤ × String) := st.lastError

/-! Cache & fallback orchestrator (src/app/api/events/route.ts).  The
outcome of `load()` (either feed pipeline under its 8s timeout) enters as
an `Except` parameter; per-road enrichment results enter as a total
`postFor` function (`fetchRwsExternalInfoForRoad` never throws);
`new Date(now).toISOString()` enters as `nowIso`. -/

/-- The in-memory snapshot (`Cache` in route.ts). -/
structure Cache where
  fetchedAt : ℤ
  events : List TrafficEvent
deriving DecidableEq, Repr

/-- `CACHE_TTL_MS` of route.ts (2 minutes). -/
def CACHE_TTL_MS : ℤ := 2 * 60 * 1000

/-- The value resolved by `getEventsFresh`. -/
structure FreshResult where
  cache : Cache
  stale : Bool
  warning : Option String
deriving DecidableEq, Repr

/-- The per-event mapping of the enrichment block (route.ts lines
109-120): only jam rows receive the matched post's text/url/timestamp. -/
def enrichOne (byRoad : List (String × ExternalPost)) (nowIso : String)
    (e : TrafficEvent) : TrafficEvent :=
  if e.category ≠ EventCategory.jam then e
  else
    match (byRoad.find? (fun p => p.1 == e.roadCode)).map (fun p => p.2) with
    | none => e
    | some p =>
      { e with
        externalInfoText := some p.text,
        externalInfoUrl := some p.url,
        externalInfoUpdated := some (p.createdAt.getD nowIso) }

/-- The optional enrichment block of `getEventsFresh`
(route.ts lines 104-122). -/
def enrichEvents (tokenPresent : Bool) (events : List TrafficEvent)
    (postFor : String → Option ExternalPost) (nowIso : String) : List TrafficEvent :=
  if tokenPresent && events.any (fun e => decide (e.category = EventCategory.jam)) then
    let roadCodes :=
      ((events.filter (fun e => decide (e.category = EventCategory.jam))).map
        (fun e => e.roadCode)).eraseDups
    let posts := roadCodes.map (fun rc => (rc, postFor rc))
    let byRoad := posts.filterMap (fun p => p.2.map (fun post => (p.1, post)))
    if byRoad.isEmpty then events
    else events.map (enrichOne byRoad nowIso)
  else events

/-- The refresh path of `getEventsFresh` (route.ts lines 99-134): on
success install a fresh snapshot; on failure serve the previous snapshot
as stale, or propagate the error if none exists. -/
def getEventsRefresh (now : ℤ) (store : Option Cache)
    (loadResult : Except String (List TrafficEvent)) (tokenPresent : Bool)
    (postFor : String → Option ExternalPost) (nowIso : String) :
    Except String (FreshResult × Option Cache) :=
  match loadResult with
  | .ok events =>
    let events2 := enrichEvents tokenPresent events postFor nowIso
    let next : Cache := ⟨now, events2⟩
    .ok (⟨next, false, none⟩, some next)
  | .error e =>
    match store with
    | some c => .ok (⟨c, true, some ("Serving stale data: " ++ e)⟩, some c)
    | none => .error e

/-- `getEventsFresh` (route.ts lines 78-135).  The second component of the
result is the stored snapshot after the call. -/
def getEventsFresh (now : ℤ) (store : Option Cache)
    (loadResult : Except String (List TrafficEvent)) (tokenPresent : Bool)
    (postFor : String → Option ExternalPost) (nowIso : String) :
    Except String (FreshResult × Option Cache) :=
  match store with
  | some c =>
    if now - c.fetchedAt < CACHE_TTL_MS then .ok (⟨c, false, none⟩, store)
    else getEventsRefresh now store loadResult tokenPresent postFor nowIso
  | none => getEventsRefresh now store loadResult tokenPresent postFor nowIso

/-- The JSON body produced by `GET` (route.ts lines 137-166). -/
structure ApiResponse where
  ok : Bool
  stale : Bool := false
  warning : Option String := none
  xDebug : Option (ℤ × String) := none
  error : Option String := none
  count : ℕ := 0
  events : List TrafficEvent := []
deriving DecidableEq, Repr

/-- `GET` response assembly (route.ts lines 142-165), given the already
resolved outcome of `getEventsFresh` and the x.ts module state. -/
def routeGET (q : EventsQuery) (xdebug : Bool)
    (fresh : Except String (FreshResult × Option Cache)) (st : XState) : ApiResponse :=
  match fresh with
  | .ok (r, _) =>
    let filtered := applyFilterSort r.cache.events q
    { ok := true, stale := r.stale, warning := r.warning,
      xDebug := if xdebug then getXLastError st else none,
      error := none, count := filtered.length, events := filtered }
  | .error e => { ok := false, error := some e }

/-- `fetchNdwEvents` (ndw.ts lines 233-240): the travel-time jam pipeline
is guarded with `.catch(() => [])`, so `Promise.all` rejects exactly when
the incidents feed rejects. -/
def fetchNdwEvents (jamResult : Except String (List TrafficEvent))
    (incidentsResult : Except String (List TrafficEvent)) :
    Except String (List TrafficEvent) :=
  match incidentsResult with
  | .error e => .error e
  | .ok incidents =>
    .ok ((match jamResult with | .ok jams => jams | .error _ => []) ++ incidents)

/-! Travel-time jam detector (ndw.ts `fetchNdwMeasuredJamsFromTravelTime`).
One `siteMeasurements` entry is modelled after the `Number(...)`
conversions: `none` stands for a missing field or a `NaN` conversion. -/

/-- `roundTo5Min` (ndw.ts lines 254-256). -/
def roundTo5Min (n : ℚ) : ℤ := jsRound (n / 5) * 5

/-- One entry of `siteMeasurements` after field navigation and `Number`
conversion (ndw.ts lines 436-448). -/
structure SiteMeasurement where
  siteId : Option String
  curDur : Option ℚ
  refDur : Option ℚ
deriving DecidableEq, Repr

/-- `JamCandidate` (ndw.ts lines 424-429). -/
structure JamCandidate where
  siteId : String
  curDur : ℚ
  refDur : ℚ
  delayMin : ℤ
deriving DecidableEq, Repr

/-- The first pass of `fetchNdwMeasuredJamsFromTravelTime`
(ndw.ts lines 436-458): compute rounded delays, keep only candidates of at
least 5 minutes. -/
def computeJamCandidates (sms : List SiteMeasurement) : List JamCandidate :=
  sms.filterMap (fun sm =>
    match sm.siteId, sm.curDur, sm.refDur with
    | some siteId, some curDur, some refDur =>
      let delayMinRaw := (curDur - refDur) / 60
      let delayMin := roundTo5Min delayMinRaw
      if delayMin < 5 then none
      else some ⟨siteId, curDur, refDur, delayMin⟩
    | _, _, _ => none)

/-- `MAX_JAMS` (ndw.ts line 434). -/
def MAX_JAMS : ℕ := 200

/-- Rank candidates by descending delay, take the top 200
(ndw.ts lines 461-462); the sort is JS stable sort on the comparator
`(a, b) => b.delayMin - a.delayMin`. -/
def topJams (candidates : List JamCandidate) : List JamCandidate :=
  (candidates.mergeSort (fun a b => decide ((b.delayMin - a.delayMin : ℤ) ≤ 0))).take MAX_JAMS

/-- `guessLengthKmFromReference` (ndw.ts lines 258-264). -/
def guessLengthKmFromReference (roadCode : String) (refSeconds : ℚ) : ℚ :=
  let isA := roadCode.startsWith "A"
  let kmh : ℚ := if isA then 100 else 80
  let km := refSeconds / 3600 * kmh
  max (1 / 10) ((jsRound (km * 10) : ℚ) / 10)

/-- One resolved measurement-site record (value type of the
`getMeasurementSitesFor` result map). -/
structure SiteInfo where
  roadCode : Option String
  name : Option String
deriving DecidableEq, Repr

/-- The output loop of `fetchNdwMeasuredJamsFromTravelTime`
(ndw.ts lines 467-499): resolve road identity for the capped candidate
set, drop unresolvable candidates, build jam events. -/
def traveltimeEventsOf (siteInfo : String → Option SiteInfo)
    (publicationTime url : String) (top : List JamCandidate) : List TrafficEvent :=
  top.filterMap (fun c =>
    match (siteInfo c.siteId).bind (fun i => i.roadCode) with
    | none => none
    | some roadCode =>
      let roadType := if roadCode.startsWith "A" then RoadType.A else RoadType.N
      match jsNumber (roadCode.drop 1) with
      | none => none
      | some roadNumber =>
        some { id := "NDW:traveltime:" ++ c.siteId,
               roadType := roadType, roadNumber := roadNumber, roadCode := roadCode,
               category := EventCategory.jam,
               eventTypeRaw := some "MeasuredTravelTime",
               locationText := (siteInfo c.siteId).bind (fun i => i.name),
               lengthKm := some (guessLengthKmFromReference roadCode c.refDur),
               delayMin := some (c.delayMin : ℚ),
               lastUpdated := publicationTime,
               sourceUrl := url })

/-- `fetchNdwMeasuredJamsFromTravelTime` (ndw.ts lines 407-500) as a pure
pipeline: candidate computation, ranking/capping, site resolution, event
construction.  `siteInfo` abstracts the `getMeasurementSitesFor` result. -/
def fetchNdwMeasuredJamsFromTravelTime (sms : List SiteMeasurement)
    (siteInfo : String → Option SiteInfo) (publicationTime url : String) :
    List TrafficEvent :=
  traveltimeEventsOf siteInfo publicationTime url (topJams (computeJamCandidates sms))

/-! DATEX feed parser (ndw.ts).  A parsed situation record is a generic
JS value tree (`fast-xml-parser` output with `parseTagValue:false`, so tag
values are strings; attribute keys carry the `@_` prefix). -/

/-- Generic JS value tree of a parsed DATEX node. -/
inductive DValue where
  | vStr (s : String)
  | vNum (q : ℚ)
  | vObj (fields : List (String × DValue))
  | vArr (elems : List DValue)

/-- JS property access `node?.[k]` on an object. -/
def dget : DValue → String → Option DValue
  | .vObj fields, k => (fields.find? (fun p => p.1 == k)).map (fun p => p.2)
  | _, _ => none

/-- Optional-chained path access `node?.k1?.k2?...`. -/
def dpath (v : DValue) (ks : List String) : Option DValue :=
  ks.foldl (fun acc k => acc.bind (fun x => dget x k)) (some v)

/-- `asArray` (ndw.ts lines 28-31): `undefined`/`null` becomes `[]`, an
array stays, anything else is wrapped. -/
def asArrayD : Option DValue → List DValue
  | none => []
  | some (.vArr l) => l
  | some v => [v]

/-- The JS value `pickFirstText` (ndw.ts lines 33-43) actually returns:
dig `values.value`, take the first entry; a string is returned directly;
an object's `#text` member (else its `text` member) is returned when
present — whatever its type, since `??` only falls through on
null/undefined — and an object with neither member (or an array, which
JS also treats as an object) is returned **as itself**, the declared
`string | undefined` return type notwithstanding; a number falls through
to `undefined`. -/
def pickFirstTextVal (node : Option DValue) : Option DValue :=
  match (asArrayD (node.bind (fun n => dpath n ["values", "value"]))).head? with
  | none => none
  | some (.vStr s) => some (.vStr s)
  | some (.vNum _) => none
  | some (.vObj fields) =>
    (dget (.vObj fields) "#text").orElse (fun _ =>
      (dget (.vObj fields) "text").orElse (fun _ => some (.vObj fields)))
  | some (.vArr l) => some (.vArr l)

/-- String collapse of `pickFirstTextVal`: the string result the callers
consume when no TypeError occurs.  The run-level strategies
(`roadNameStrategyRun`, `commentStrategyRun` below) account for the
throwing non-string results; display-only uses (locationText) embed a
non-string value as-is in the JSON, with no bearing on which events are
emitted or whether the batch completes. -/
def pickFirstText (node : Option DValue) : Option String :=
  match pickFirstTextVal node with
  | some (.vStr s) => some s
  | _ => none

/-- `asNumber` (ndw.ts lines 56-63). -/
def asNumberD : DValue → Option ℚ
  | .vNum q => some q
  | .vStr s => if s.trim.isEmpty then none else jsNumber s
  | _ => none

mutual

/-- `collectSpecificLocationsDeep` (ndw.ts lines 137-160): every
`specificLocation` member found anywhere under the node, converted with
`asNumber`.  (The source walks with an explicit LIFO stack; the embedding
walks in document order.  The road-code strategies only consult which
location codes occur, through `firstRoadHit` under a no-hit or single-hit
table, so the enumeration order is immaterial here.) -/
def collectSpecificLocationsDeep : DValue → List ℚ
  | .vStr _ => []
  | .vNum _ => []
  | .vObj fields =>
    (match (fields.find? (fun p => p.1 == "specificLocation")).map (fun p => p.2) with
     | some v => (asNumberD v).toList
     | none => []) ++ collectSpecFields fields
  | .vArr elems => collectSpecList elems

def collectSpecFields : List (String × DValue) → List ℚ
  | [] => []
  | p :: rest => collectSpecificLocationsDeep p.2 ++ collectSpecFields rest

def collectSpecList : List DValue → List ℚ
  | [] => []
  | v :: rest => collectSpecificLocationsDeep v ++ collectSpecList rest

end

/-- First location code that hits the VILD road table (the `for` loop in
ndw.ts lines 182-185). -/
def firstRoadHit (roadMap : ℚ → Option String) : List ℚ → Option String
  | [] => none
  | loc :: rest =>
    match roadMap loc with
    | some road => some road
    | none => firstRoadHit roadMap rest

/-- `/^(A|N)\d+$/i` on the trimmed road name (strategy 1 shape check). -/
def roadNameShapeTest (s : String) : Bool :=
  match s.trim.toList with
  | [] => false
  | c :: rest =>
    (charEqCI c 'A' || charEqCI c 'N') && !rest.isEmpty && rest.all Char.isDigit

/-- Strategy 1 of `parseRoadCodeFromSituationRecord` (ndw.ts lines
164-171): explicit structured road-name fields. -/
def roadNameStrategy (sr : DValue) : Option String :=
  let roadName :=
    (pickFirstText
      ((dpath sr ["groupOfLocations", "roadsideReferencePoint", "roadName"]).orElse
        (fun _ =>
          dpath sr ["groupOfLocations", "roadsideReferencePoint", "pointExtension",
            "roadName"]))).orElse
      (fun _ => pickFirstText (dpath sr ["groupOfLocations", "locationContainedInGroup",
        "roadName"]))
  match roadName with
  | some rn => if roadNameShapeTest rn then some rn.trim.toUpper else none
  | none => none

/-- Match `\d{1,3}` followed by `\b`: the greedy repetition with its
backtracking accepts exactly a maximal digit run of length 1-3 whose
follower is absent or not a word character (any shorter prefix abuts a
digit, which is a word character). -/
def roadTokenDigits (l : List Char) : Option (List Char) :=
  let ds := l.takeWhile Char.isDigit
  let rest := l.dropWhile Char.isDigit
  if ds.isEmpty || decide (3 < ds.length) then none
  else
    match rest with
    | [] => some ds
    | c :: _ => if isWordChar c then none else some ds

/-- After a matched `[AN]` character: `\s?\d{1,3}\b`, returning the
cleaned capture (whitespace stripped, upper-cased) as the source does with
`m[1].replace(/\s+/g, '').toUpperCase()`. -/
def roadTokenAt (c : Char) (rest : List Char) : Option String :=
  if charEqCI c 'A' || charEqCI c 'N' then
    match rest with
    | w :: rest2 =>
      if w.isWhitespace then
        match roadTokenDigits rest2 with
        | some ds => some (String.mk (c.toUpper :: ds))
        | none => (roadTokenDigits rest).map (fun ds => String.mk (c.toUpper :: ds))
      else (roadTokenDigits rest).map (fun ds => String.mk (c.toUpper :: ds))
    | [] => none
  else none

/-- Scan for `/\b([AN]\s?\d{1,3})\b/i` (strategy 2 regex), left to right;
`prev` is the previous character for the leading word boundary. -/
def findRoadToken : Option Char → List Char → Option String
  | _, [] => none
  | prev, c :: rest =>
    match (if (match prev with | none => true | some p => !isWordChar p) then
        roadTokenAt c rest else none) with
    | some s => some s
    | none => findRoadToken (some c) rest

/-- Strategy 2 of `parseRoadCodeFromSituationRecord` (ndw.ts lines
173-176): regex extraction from the public comment. -/
def commentStrategy (sr : DValue) : Option String :=
  (pickFirstText (dpath sr ["generalPublicComment", "comment"])).bind
    (fun comment => findRoadToken none comment.toList)

/-- The location subtree searched by strategy 3:
`sr?.locationReference ?? sr?.groupOfLocations`. -/
def situationRecordLocations (sr : DValue) : List ℚ :=
  match (dget sr "locationReference").orElse (fun _ => dget sr "groupOfLocations") with
  | some v => collectSpecificLocationsDeep v
  | none => []

/-- Strategy 3 of `parseRoadCodeFromSituationRecord` (ndw.ts lines
178-186): Alert-C specific-location lookup through the VILD table. -/
def alertCStrategy (roadMap : ℚ → Option String) (sr : DValue) : Option String :=
  firstRoadHit roadMap (situationRecordLocations sr)

/-- `parseRoadCodeFromSituationRecord` (ndw.ts lines 162-189): ordered
strategy chain, first success wins. -/
def parseRoadCodeFromSituationRecord (roadMap : ℚ → Option String) (sr : DValue) :
    Option String :=
  (roadNameStrategy sr).orElse
    (fun _ => (commentStrategy sr).orElse (fun _ => alertCStrategy roadMap sr))

/-- The length candidate field chain of `parseLengthKm`
(ndw.ts lines 200-205). -/
def datexMetersValue (sr : DValue) : Option DValue :=
  (dpath sr ["lengthAffected", "distance"]).orElse (fun _ =>
    (dpath sr ["distanceAffected", "distance"]).orElse (fun _ =>
      (dpath sr ["queueLength", "distance"]).orElse (fun _ =>
        (dpath sr ["trafficJamLength", "distance"]).orElse (fun _ =>
          dget sr "queueLength"))))

/-- The selected meters value after string/number conversion
(`none` covers missing values and `NaN`). -/
def datexMetersNum (sr : DValue) : Option ℚ :=
  match datexMetersValue sr with
  | some (.vStr s) => jsNumber s
  | some (.vNum q) => some q
  | _ => none

/-- `parseLengthKm` (ndw.ts lines 198-210): meters to km, one decimal;
`!n` also drops an (unrealistic) zero-meter length. -/
def parseLengthKm (sr : DValue) : Option ℚ :=
  match datexMetersNum sr with
  | none => none
  | some q => if q = 0 then none else some ((jsRound (q / 1000 * 10) : ℚ) / 10)

/-- `sr?.delayTime?.duration ?? sr?.delay?.duration`
(ndw.ts line 213). -/
def datexDelayDuration (sr : DValue) : Option DValue :=
  (dpath sr ["delayTime", "duration"]).orElse (fun _ => dpath sr ["delay", "duration"])

/-- One optional component `(\d+)X` of the `PT` duration regex: a digit
run immediately followed by the marker; otherwise nothing is consumed. -/
def ptComponent (marker : Char) (l : List Char) : ℕ × List Char :=
  let ds := l.takeWhile Char.isDigit
  let rest := l.dropWhile Char.isDigit
  match rest with
  | c :: rest2 => if !ds.isEmpty && c == marker then (digitsVal ds, rest2) else (0, l)
  | [] => (0, l)

/-- Find the first `PT` occurrence (the unanchored regex scans from the
left); returns the suffix after it. -/
def ptFind : List Char → Option (List Char)
  | [] => none
  | 'P' :: 'T' :: rest => some rest
  | _ :: rest => ptFind rest

/-- `parseDelayMin` (ndw.ts lines 212-226): a numeric duration is raw
seconds rounded to minutes; a string is matched against
`PT(?:(\d+)H)?(?:(\d+)M)?(?:(\d+)S)?` with seconds rounded to minutes;
`total || undefined` turns a zero total into an absent delay. -/
def parseDelayMin (sr : DValue) : Option ℚ :=
  match datexDelayDuration sr with
  | some (.vNum q) => some ((jsRound (q / 60) : ℚ))
  | some (.vStr s) =>
    match ptFind s.toList with
    | none => none
    | some afterPT =>
      let h := ptComponent 'H' afterPT
      let m := ptComponent 'M' h.2
      let sec := ptComponent 'S' m.2
      let total : ℚ := (h.1 : ℚ) * 60 + (m.1 : ℚ) + (jsRound ((sec.1 : ℚ) / 60) : ℚ)
      if total = 0 then none else some total
  | _ => none

/-- The two feed kinds of `fetchNdwDatexFeed`. -/
inductive FeedHint where
  | incidents
  | actueel_beeld
deriving DecidableEq, Repr

/-- Case-insensitive prefix test (helper for substring regex tests). -/
def isPrefixCI : List Char → List Char → Bool
  | [], _ => true
  | _ :: _, [] => false
  | p :: ps, c :: cs => charEqCI p c && isPrefixCI ps cs

/-- Case-insensitive substring test over character lists. -/
def containsCIAux (pat : List Char) : List Char → Bool
  | [] => isPrefixCI pat []
  | c :: rest => isPrefixCI pat (c :: rest) || containsCIAux pat rest

/-- Case-insensitive substring test (`/pat/i.test(s)` for literal
patterns). -/
def containsCI (s pat : String) : Bool := containsCIAux pat.toList s.toList

/-- `categoryFromType` (ndw.ts lines 191-196): the jam feed is always
`jam`; the incidents feed maps every record to the `accident` bucket —
the `Accident` test is written in the source but both branches coincide
(documented MVP simplification). -/
def categoryFromType (typeRaw : String) (feedHint : FeedHint) : EventCategory :=
  match feedHint with
  | .actueel_beeld => .jam
  | .incidents => if containsCI typeRaw "Accident" then .accident else .accident

/-- `sr?.['@_xsi:type'] ?? sr?.['@_type'] ?? sr?.type ?? ''`, stringified.
With `parseAttributeValue:false` these values are strings. -/
def typeRawOf (sr : DValue) : String :=
  match (dget sr "@_xsi:type").orElse
      (fun _ => (dget sr "@_type").orElse (fun _ => dget sr "type")) with
  | some (.vStr s) => s
  | _ => ""

/-- `sr?.['@_id'] ?? ''`. -/
def srIdOf (sr : DValue) : String :=
  match dget sr "@_id" with
  | some (.vStr s) => s
  | _ => ""

/-- Feed-hint path segment used in event ids. -/
def feedHintStr : FeedHint → String
  | .incidents => "incidents"
  | .actueel_beeld => "actueel_beeld"

/-- The per-record body of the situation loop in `fetchNdwDatexFeed`
(ndw.ts lines 534-568): subtype filter for the jam feed, road-code
resolution (drop on failure), field extraction. -/
def datexRecordEvent (roadMap : ℚ → Option String) (feedHint : FeedHint)
    (publicationTime url sitId : String) (sr : DValue) : Option TrafficEvent :=
  let typeRaw := typeRawOf sr
  if decide (feedHint = FeedHint.actueel_beeld) && !containsCI typeRaw "AbnormalTraffic"
  then none
  else
    match parseRoadCodeFromSituationRecord roadMap sr with
    | none => none
    | some roadCode =>
      let roadType := if roadCode.startsWith "A" then RoadType.A else RoadType.N
      match jsNumber (roadCode.drop 1) with
      | none => none
      | some roadNumber =>
        some { id := "NDW:" ++ feedHintStr feedHint ++ ":" ++ sitId ++ ":" ++ srIdOf sr,
               roadType := roadType, roadNumber := roadNumber, roadCode := roadCode,
               category := categoryFromType typeRaw feedHint,
               eventTypeRaw := some typeRaw,
               locationText :=
                 (pickFirstText (dpath sr ["generalPublicComment", "comment"])).orElse
                   (fun _ =>
                     (pickFirstText (dpath sr ["nonGeneralPublicComment",
                       "comment"])).orElse
                       (fun _ => pickFirstText (dpath sr ["cause", "causeDescription"]))),
               lengthKm := parseLengthKm sr,
               delayMin := parseDelayMin sr,
               lastUpdated := publicationTime,
               sourceUrl := url }

/-- One `seg.events` entry (`ev?.text`). -/
structure AnwbSubEvent where
  text : Option String
deriving DecidableEq, Repr

/-- One matched ANWB segment (JS `from`/`to`/`type` renamed
`fromLoc`/`toLoc`/`segType`). -/
structure AnwbSeg where
  id : ℚ
  road : String
  segType : Option String
  category : String
  fromLoc : Option String
  toLoc : Option String
  distance : Option ℚ
  delay : Option ℚ
  codeDirection : Option ℚ
  incidentType : Option String
  reason : Option String
  events : List AnwbSubEvent
deriving DecidableEq, Repr

/-- `ANWB_FILELIJST_URL` (anwb.ts). -/
def ANWB_FILELIJST_URL : String := "https://www.anwb.nl/verkeer/filelijst"

/-- JS `String(number)` for the integral values exercised here. -/
def jsNumToString (q : ℚ) : String := toString q

/-- `roadTypeFromSeg` (anwb.ts lines 639-644). -/
def roadTypeFromSeg (seg : AnwbSeg) : Option RoadType :=
  let t := (seg.segType.getD "").toLower
  if t == "a" then some RoadType.A
  else if t == "n" then some RoadType.N
  else none

/-- `roadNumberFromCode` (anwb.ts lines 646-650):
`/^([AN])(\d{1,3})$/` on the upper-cased code, returning the number. -/
def roadNumberFromCode (code : String) : Option ℚ :=
  match code.toUpper.toList with
  | [] => none
  | c :: rest =>
    if (c == 'A' || c == 'N') && !rest.isEmpty && decide (rest.length ≤ 3) &&
        rest.all Char.isDigit
    then some (digitsVal rest : ℚ)
    else none

/-- Fuel-indexed worker for `splitDotWs`: each step consumes at least one
character, so fuel equal to the input length makes the recursion total
without leaving the structural fragment. -/
def splitDotWsGo : ℕ → List Char → List (List Char)
  | 0, _ => [[]]
  | _ + 1, [] => [[]]
  | _ + 1, ['.'] => [[], []]
  | fuel + 1, '.' :: d :: rest =>
    if d.isWhitespace then [] :: splitDotWsGo fuel ((d :: rest).dropWhile Char.isWhitespace)
    else
      match splitDotWsGo fuel (d :: rest) with
      | [] => [['.']]
      | p :: ps => ('.' :: p) :: ps
  | fuel + 1, c :: rest =>
    match splitDotWsGo fuel rest with
    | [] => [[c]]
    | p :: ps => (c :: p) :: ps

/-- Split on `/\.(?:\s+|$)/g`: a dot followed by a (greedy) whitespace run
or the end of the string separates phrases; any other dot is content. -/
def splitDotWs (l : List Char) : List (List Char) := splitDotWsGo l.length l

/-- `replace(/\s+/g, ' ')`: collapse every whitespace run to one space
(`inRun` marks being inside a run already replaced). -/
def collapseWsGo : Bool → List Char → List Char
  | _, [] => []
  | inRun, c :: rest =>
    if c.isWhitespace then
      (if inRun then collapseWsGo true rest else ' ' :: collapseWsGo true rest)
    else c :: collapseWsGo false rest

/-- The `norm` lambda of anwb.ts line 733:
`s.trim().replace(/\s+/g, ' ').toLowerCase()`. -/
def normPhrase (s : String) : String :=
  (String.mk (collapseWsGo false s.trim.toList)).toLower

/-- `replace(/[\s.;:,-]+$/g, '')`: strip a trailing run of whitespace and
light punctuation. -/
def stripTrailingJunk (s : String) : String :=
  String.mk ((s.toList.reverse.dropWhile
    (fun c => c.isWhitespace || c == '.' || c == ';' || c == ':' || c == ',' ||
      c == '-')).reverse)

/-- The reason-text assembly of the ANWB segment loop (anwb.ts lines
717-743): gather reason plus event texts, split into sentences, trim,
dedupe case/whitespace-insensitively keeping first occurrences, rejoin. -/
def anwbReasonText (seg : AnwbSeg) : Option String :=
  let rawParts :=
    (match seg.reason with
     | some r => if !r.trim.isEmpty then [r.trim] else []
     | none => []) ++
    seg.events.filterMap (fun ev =>
      match ev.text with
      | some t => if !t.trim.isEmpty then some t.trim else none
      | none => none)
  let phrases := rawParts.flatMap (fun p =>
    (splitDotWs p.toList).filterMap (fun piece =>
      let s := (String.mk piece).trim
      if s.isEmpty then none else some s))
  let uniq := phrases.foldl
    (fun (acc : List (String × String)) ph =>
      let cleaned := (stripTrailingJunk ph).trim
      let k := normPhrase cleaned
      if k.isEmpty then acc
      else if (acc.find? (fun p => p.1 == k)).isSome then acc
      else acc ++ [(k, cleaned)]) []
  if uniq.isEmpty then none
  else some (String.intercalate ". " (uniq.map (fun p => p.2)) ++ ".")

/-- The per-segment body of `fetchAnwbEvents` (anwb.ts lines 682-763):
road shape gate, category mapping, the >50 meters and >180 seconds unit
heuristics, location/reason assembly. -/
def anwbEventOfSeg (fetchedIso : String) (seg : AnwbSeg) : Option TrafficEvent :=
  let roadCode := String.mk (seg.road.toUpper.toList.filter (fun c => !c.isWhitespace))
  match roadTypeFromSeg seg, roadNumberFromCode roadCode with
  | some rt, some rn =>
    let catRaw := seg.category
    some { id := "anwb:" ++ jsNumToString seg.id,
           roadType := rt, roadNumber := rn, roadCode := roadCode,
           direction := seg.codeDirection.map jsNumToString,
           fromLoc := seg.fromLoc, toLoc := seg.toLoc,
           locationText :=
             (match seg.fromLoc, seg.toLoc with
              | some f, some t => some (f ++ " → " ++ t)
              | some f, none => some f
              | none, t => t),
           lengthKm := seg.distance.map (fun d => if 50 < d then d / 1000 else d),
           delayMin := seg.delay.map (fun d =>
             if 180 < d then ((jsRound (d / 60) : ℤ) : ℚ) else d),
           category := if catRaw == "jams" then EventCategory.jam
             else EventCategory.accident,
           eventTypeRaw := some (catRaw ++ ":" ++ (seg.incidentType.getD "")),
           reasonText := anwbReasonText seg,
           lastUpdated := fetchedIso,
           sourceUrl := ANWB_FILELIJST_URL }
  | _, _ => none

/-- The segment loop of `fetchAnwbEvents` (anwb.ts lines 681-765), given
the segments found by the shape-based search. -/
def fetchAnwbEvents (fetchedIso : String) (segments : List AnwbSeg) : List TrafficEvent :=
  segments.filterMap (anwbEventOfSeg fetchedIso)

/-- `q.den = 1`: the value is an integer (data-model bound for
`delayMin`). -/
def isIntQ (q : ℚ) : Prop := q.den = 1

/-- `(q * 10).den = 1`: the value carries at most one decimal place
(data-model bound for `lengthKm`). -/
def oneDecimal (q : ℚ) : Prop := (q * 10).den = 1

/-! Measurement-site resolver (ndw.ts `getMeasurementSitesFor`).  The sax
tokenizer turns each decompressed chunk into the `measurementsiterecord`
elements it completes; one record is modelled by the values its
`onclosetag` handler has accumulated (id attribute, site name, Alert-C
specific location).  The per-chunk loop structure — process a chunk, then
abort the stream as soon as the remaining-wanted set is empty — is the
subject of the early-abort property. -/

/-- One streamed `measurementsiterecord` as accumulated by the sax
handlers. -/
structure SiteRec where
  id : String
  name : Option String
  specificLoc : Option ℚ
deriving DecidableEq, Repr

/-- Mutable state of the streaming parse: the result map and the
remaining-wanted id set. -/
structure ResolverState where
  sites : List (String × SiteInfo)
  remaining : List String
deriving DecidableEq, Repr

/-- `Map.set` on the sites result map (overwrite semantics). -/
def setSite (sites : List (String × SiteInfo)) (k : String) (v : SiteInfo) :
    List (String × SiteInfo) :=
  (k, v) :: sites.filter (fun p => !(p.1 == k))

/-- The `onclosetag` record completion (ndw.ts lines 348-352): a wanted
record resolves its road code through the VILD table and leaves the
remaining-wanted set. -/
def processRecord (ids : List String) (vildRoadMap : ℚ → Option String)
    (st : ResolverState) (r : SiteRec) : ResolverState :=
  if ids.contains r.id then
    { sites := setSite st.sites r.id
        { roadCode := r.specificLoc.bind vildRoadMap, name := r.name },
      remaining := st.remaining.erase r.id }
  else st

/-- `parser.write(chunk)`: process every record the chunk completes. -/
def processChunk (ids : List String) (vildRoadMap : ℚ → Option String)
    (st : ResolverState) (chunk : List SiteRec) : ResolverState :=
  chunk.foldl (processRecord ids vildRoadMap) st

/-- The gunzip `data` loop (ndw.ts lines 377-388): after each chunk, stop
immediately once the remaining-wanted set is empty (`gunzip.destroy()`),
otherwise keep consuming the stream. -/
def runStream (ids : List String) (vildRoadMap : ℚ → Option String) :
    ResolverState → List (List SiteRec) → ResolverState
  | st, [] => st
  | st, c :: rest =>
    let st2 := processChunk ids vildRoadMap st c
    if st2.remaining.isEmpty then st2 else runStream ids vildRoadMap st2 rest

/-- Number of chunks the loop reads from the stream (same recursion
structure as `runStream`). -/
def chunksConsumed (ids : List String) (vildRoadMap : ℚ → Option String) :
    ResolverState → List (List SiteRec) → ℕ
  | _, [] => 0
  | st, c :: rest =>
    let st2 := processChunk ids vildRoadMap st c
    if st2.remaining.isEmpty then 1 else 1 + chunksConsumed ids vildRoadMap st2 rest

/-- `getMeasurementSitesFor` (ndw.ts lines 266-405) on a cold cache: the
empty wanted set short-circuits before any fetch; otherwise the stream is
consumed through `runStream` starting from an empty result map and the
full wanted set. -/
def getMeasurementSitesFor (ids : List String) (vildRoadMap : ℚ → Option String)
    (chunks : List (List SiteRec)) : List (String × SiteInfo) :=
  if ids.isEmpty then []
  else (runStream ids vildRoadMap ⟨[], ids⟩ chunks).sites

/-- An ANWB segment whose distance payload is 1234 (meters). -/
def anwbSeg1234 : AnwbSeg :=
  { id := 1, road := "A8", segType := some "a", category := "jams",
    fromLoc := none, toLoc := none, distance := some 1234, delay := none,
    codeDirection := none, incidentType := none, reason := none, events := [] }

/-- The event the scrape extractor emits for `anwbSeg1234`:
`lengthKm = 1234/1000 = 1.234`, three decimal places. -/
def anwbEvent1234 : TrafficEvent :=
  { id := "anwb:1", roadType := RoadType.A, roadNumber := 8, roadCode := "A8",
    direction := none, fromLoc := none, toLoc := none, locationText := none,
    lengthKm := some (1234 / 1000), delayMin := none,
    category := EventCategory.jam, eventTypeRaw := some "jams:",
    reasonText := none, lastUpdated := "2024-01-01T00:00:00.000Z",
    sourceUrl := ANWB_FILELIJST_URL }

theorem lex4Le_trans {x y z : ℚ × ℚ × ℚ × ℚ} (hxy : lex4Le x y) (hyz : lex4Le y z) :
    lex4Le x z := by
  obtain ⟨x1, x2, x3, x4⟩ := x
  obtain ⟨y1, y2, y3, y4⟩ := y
  obtain ⟨z1, z2, z3, z4⟩ := z
  simp only [lex4Le] at hxy hyz ⊢
  rcases hxy with h1 | ⟨e1, h2 | ⟨e2, h3 | ⟨e3, h4⟩⟩⟩ <;>
    rcases hyz with g1 | ⟨f1, g2 | ⟨f2, g3 | ⟨f3, g4⟩⟩⟩ <;>
      first
        | exact Or.inl (by linarith)
        | exact Or.inr ⟨by linarith, Or.inl (by linarith)⟩
        | exact Or.inr ⟨by linarith, Or.inr ⟨by linarith, Or.inl (by linarith)⟩⟩
        | exact Or.inr ⟨by linarith, Or.inr ⟨by linarith, Or.inr ⟨by linarith, by linarith⟩⟩⟩

theorem lex4Le_total (x y : ℚ × ℚ × ℚ × ℚ) : lex4Le x y ∨ lex4Le y x := by
  obtain ⟨x1, x2, x3, x4⟩ := x
  obtain ⟨y1, y2, y3, y4⟩ := y
  simp only [lex4Le]
  rcases lt_trichotomy x1 y1 with h1 | h1 | h1
  · exact Or.inl (Or.inl h1)
  · rcases lt_trichotomy x2 y2 with h2 | h2 | h2
    · exact Or.inl (Or.inr ⟨h1, Or.inl h2⟩)
    · rcases lt_trichotomy x3 y3 with h3 | h3 | h3
      · exact Or.inl (Or.inr ⟨h1, Or.inr ⟨h2, Or.inl h3⟩⟩)
      · rcases le_total x4 y4 with h4 | h4
        · exact Or.inl (Or.inr ⟨h1, Or.inr ⟨h2, Or.inr ⟨h3, h4⟩⟩⟩)
        · exact Or.inr (Or.inr ⟨h1.symm, Or.inr ⟨h2.symm, Or.inr ⟨h3.symm, h4⟩⟩⟩)
      · exact Or.inr (Or.inr ⟨h1.symm, Or.inr ⟨h2.symm, Or.inl h3⟩⟩)
    · exact Or.inr (Or.inr ⟨h1.symm, Or.inl h2⟩)
  · exact Or.inr (Or.inl h1)

/-- Semantic order for the non-road sort keys: descending by the named
numeric field, missing values as `-1`. -/
def valKey (k : SortKey) (e : TrafficEvent) : ℚ :=
  match k with
  | .delay => numOr e.delayMin
  | .length => numOr e.lengthKm
  | .road => 0

/-- Semantic counterpart of `jsSortLe`. -/
def jsKeyLe (k : SortKey) (a b : TrafficEvent) : Prop :=
  match k with
  | .road => lex4Le (roadKeyQ a) (roadKeyQ b)
  | .delay => valKey .delay b ≤ valKey .delay a
  | .length => valKey .length b ≤ valKey .length a

theorem jsCompareRoad_le_iff (a b : TrafficEvent) :
    jsCompareRoad a b ≤ 0 ↔ lex4Le (roadKeyQ a) (roadKeyQ b) := by
  unfold jsCompareRoad roadKeyQ lex4Le
  dsimp only
  by_cases ht : a.roadType = b.roadType
  · rw [if_neg (not_not_intro ht)]
    have hr : rankRT a.roadType = rankRT b.roadType := by rw [ht]
    by_cases h1 : a.roadNumber = b.roadNumber
    · rw [if_neg (not_not_intro h1)]
      by_cases h2 : numOr a.delayMin = numOr b.delayMin
      · rw [if_neg (not_not_intro h2)]
        constructor
        · intro h
          exact Or.inr ⟨hr, Or.inr ⟨h1, Or.inr ⟨by rw [h2], by linarith⟩⟩⟩
        · rintro (h | ⟨-, h | ⟨-, h | ⟨-, h4⟩⟩⟩)
          · rw [hr] at h; exact absurd h (lt_irrefl _)
          · rw [h1] at h; exact absurd h (lt_irrefl _)
          · rw [h2] at h; exact absurd h (lt_irrefl _)
          · linarith
      · rw [if_pos h2]
        constructor
        · intro h
          have hlt : numOr b.delayMin < numOr a.delayMin :=
            lt_of_le_of_ne (by linarith) (fun e => h2 e.symm)
          exact Or.inr ⟨hr, Or.inr ⟨h1, Or.inl (by linarith)⟩⟩
        · rintro (h | ⟨-, h | ⟨-, h | ⟨e3, -⟩⟩⟩)
          · rw [hr] at h; exact absurd h (lt_irrefl _)
          · rw [h1] at h; exact absurd h (lt_irrefl _)
          · linarith
          · linarith
    · rw [if_pos h1]
      constructor
      · intro h
        exact Or.inr ⟨hr, Or.inl (lt_of_le_of_ne (by linarith) h1)⟩
      · rintro (h | ⟨-, h | ⟨e, -⟩⟩)
        · rw [hr] at h; exact absurd h (lt_irrefl _)
        · linarith
        · exact absurd e h1
  · rw [if_pos ht]
    cases hA : a.roadType <;> cases hB : b.roadType
    · rw [hA, hB] at ht; exact absurd rfl ht
    · rw [if_pos rfl]; norm_num [rankRT]
    · rw [if_neg (by decide)]; norm_num [rankRT]
    · rw [hA, hB] at ht; exact absurd rfl ht

theorem jsSortLe_iff (k : SortKey) (a b : TrafficEvent) :
    jsSortLe k a b = true ↔ jsKeyLe k a b := by
  cases k <;>
    simp only [jsSortLe, jsCompare, jsKeyLe, valKey, decide_eq_true_eq]
  · constructor <;> intro h <;> linarith
  · constructor <;> intro h <;> linarith
  · exact jsCompareRoad_le_iff a b

theorem jsSortLe_trans (k : SortKey) (a b c : TrafficEvent)
    (hab : jsSortLe k a b) (hbc : jsSortLe k b c) : jsSortLe k a c := by
  rw [jsSortLe_iff] at hab hbc ⊢
  cases k <;> simp only [jsKeyLe] at hab hbc ⊢
  · linarith
  · linarith
  · exact lex4Le_trans hab hbc

theorem jsKeyLe_total (k : SortKey) (a b : TrafficEvent) :
    jsKeyLe k a b ∨ jsKeyLe k b a := by
  cases k <;> simp only [jsKeyLe]
  · exact le_total _ _
  · exact le_total _ _
  · exact lex4Le_total _ _

theorem jsSortLe_total (k : SortKey) (a b : TrafficEvent) :
    jsSortLe k a b || jsSortLe k b a := by
  rcases jsKeyLe_total k a b with h | h
  · simp [(jsSortLe_iff k a b).mpr h]
  · simp [(jsSortLe_iff k b a).mpr h]

theorem filterStage_eq (l : List TrafficEvent) (q : EventsQuery) :
    filterStage l q = ((l.filter (matchesType q)).filter (matchesRoad q)).filter (matchesCat q) := by
  unfold filterStage matchesType matchesRoad matchesCat
  cases q.type <;> cases q.road <;> cases q.category <;> simp

theorem mem_filterStage {x : TrafficEvent} {l : List TrafficEvent} {q : EventsQuery}
    (hx : x ∈ filterStage l q) :
    matchesType q x ∧ matchesRoad q x ∧ matchesCat q x := by
  rw [filterStage_eq] at hx
  rcases List.mem_filter.mp hx with ⟨hx2, hc⟩
  rcases List.mem_filter.mp hx2 with ⟨hx1, hr⟩
  rcases List.mem_filter.mp hx1 with ⟨-, ht⟩
  exact ⟨ht, hr, hc⟩

/-- Re-filtering the query engine's output changes nothing: every element
of the output already passes all three filters. -/
theorem filterStage_applyFilterSort (events : List TrafficEvent) (q : EventsQuery) :
    filterStage (applyFilterSort events q) q = applyFilterSort events q := by
  have hmem : ∀ x ∈ applyFilterSort events q, x ∈ filterStage events q := by
    intro x hx
    exact List.mem_mergeSort.mp hx
  rw [filterStage_eq]
  have h1 : (applyFilterSort events q).filter (matchesType q) = applyFilterSort events q :=
    List.filter_eq_self.mpr (fun a ha => (mem_filterStage (hmem a ha)).1)
  rw [h1]
  have h2 : (applyFilterSort events q).filter (matchesRoad q) = applyFilterSort events q :=
    List.filter_eq_self.mpr (fun a ha => (mem_filterStage (hmem a ha)).2.1)
  rw [h2]
  exact List.filter_eq_self.mpr (fun a ha => (mem_filterStage (hmem a ha)).2.2)

/-- C6: applying the query engine's filter+sort twice in sequence yields the
same ordered sequence as applying it once, for every event list and every
query. -/
theorem applyFilterSort_idempotent (events : List TrafficEvent) (q : EventsQuery) :
    applyFilterSort (applyFilterSort events q) q = applyFilterSort events q := by
  conv_lhs => rw [applyFilterSort, filterStage_applyFilterSort]
  exact List.mergeSort_of_sorted
    (List.sorted_mergeSort
      (fun a b c hab hbc => jsSortLe_trans (sortKeyOf q) a b c hab hbc)
      (fun a b => jsSortLe_total (sortKeyOf q) a b)
      (filterStage events q))

theorem lex4Le_roadKeyQ_iff (a b : TrafficEvent) :
    lex4Le (roadKeyQ a) (roadKeyQ b) ↔ roadSpecLe a b := by
  unfold lex4Le roadKeyQ roadSpecLe
  dsimp only
  constructor
  · rintro (h | ⟨e, rest⟩)
    · left
      cases hA : a.roadType <;> cases hB : b.roadType <;>
        simp only [hA, hB, rankRT] at h ⊢ <;> norm_num at h ⊢
    · right
      refine ⟨?_, ?_⟩
      · cases hA : a.roadType <;> cases hB : b.roadType <;>
          simp only [hA, hB, rankRT] at e ⊢ <;> norm_num at e ⊢
      · rcases rest with h2 | ⟨e2, h3 | ⟨e3, h4⟩⟩
        · exact Or.inl h2
        · exact Or.inr ⟨e2, Or.inl (by linarith)⟩
        · exact Or.inr ⟨e2, Or.inr ⟨by linarith, by linarith⟩⟩
  · rintro (⟨hA, hB⟩ | ⟨e, rest⟩)
    · left; rw [hA, hB]; norm_num [rankRT]
    · right
      refine ⟨by rw [e], ?_⟩
      rcases rest with h2 | ⟨e2, h3 | ⟨e3, h4⟩⟩
      · exact Or.inl h2
      · exact Or.inr ⟨e2, Or.inl (by linarith)⟩
      · exact Or.inr ⟨e2, Or.inr ⟨by linarith, by linarith⟩⟩

/-- C4: with sort key `road` the query engine emits a permutation of the
filtered input ordered by road type (A before N), then ascending road
number, then descending delay, then descending length (missing = -1);
events tied on all keys keep their input relative order (stability); and
the spec's concrete example sorts as [A8/20, A8/5, N35/99]. -/
theorem applyFilterSort_road_order :
    (∀ (events : List TrafficEvent) (q : EventsQuery), q.sort = some SortKey.road →
      (applyFilterSort events q).Perm (filterStage events q) ∧
      (applyFilterSort events q).Pairwise roadSpecLe ∧
      (∀ c : List TrafficEvent, c.Sublist (filterStage events q) →
        c.Pairwise (fun x y => jsCompare SortKey.road x y = 0) →
        c.Sublist (applyFilterSort events q))) ∧
    applyFilterSort [evN35d99, evA8d5, evA8d20] { sort := some SortKey.road } =
      [evA8d20, evA8d5, evN35d99] := by
  constructor
  · intro events q hq
    have hkey : sortKeyOf q = SortKey.road := by rw [sortKeyOf, hq]; rfl
    unfold applyFilterSort
    rw [hkey]
    refine ⟨List.mergeSort_perm _ _, ?_, ?_⟩
    · have hp := List.sorted_mergeSort
        (fun a b c hab hbc => jsSortLe_trans SortKey.road a b c hab hbc)
        (fun a b => jsSortLe_total SortKey.road a b)
        (filterStage events q)
      refine hp.imp ?_
      intro a b hab
      exact (lex4Le_roadKeyQ_iff a b).mp ((jsSortLe_iff SortKey.road a b).mp hab)
    · intro c hsub hties
      refine List.sublist_mergeSort
        (fun a b c hab hbc => jsSortLe_trans SortKey.road a b c hab hbc)
        (fun a b => jsSortLe_total SortKey.road a b)
        ?_ hsub
      exact hties.imp (fun h0 => by simp [jsSortLe, h0])
  · with_unfolding_all decide

theorem applyFilterSort_road_order_witness :
    [evTie1, evTie2].Sublist
      (applyFilterSort [evTie1, evTie2] { sort := some SortKey.road }) := by
  have h := applyFilterSort_road_order
  exact (h.1 [evTie1, evTie2] { sort := some SortKey.road } rfl).2.2
    [evTie1, evTie2] (List.Sublist.refl _) (by with_unfolding_all decide)

/-- C1: when the snapshot is expired and the refresh pipeline fails while a
previous snapshot exists, the request still succeeds: stale=true, a
non-empty warning naming the failure, events exactly the previous
snapshot's events, the stored snapshot unchanged, and the HTTP response is
never an error. -/
theorem getEventsFresh_staleFallback (now : ℤ) (c : Cache) (e : String)
    (tokenPresent : Bool) (postFor : String → Option ExternalPost) (nowIso : String)
    (hstale : ¬ (now - c.fetchedAt < CACHE_TTL_MS)) :
    getEventsFresh now (some c) (Except.error e) tokenPresent postFor nowIso =
      Except.ok (⟨c, true, some ("Serving stale data: " ++ e)⟩, some c) ∧
    ("Serving stale data: " ++ e) ≠ "" ∧
    (∀ (q : EventsQuery) (xdebug : Bool) (st : XState),
      (routeGET q xdebug
        (getEventsFresh now (some c) (Except.error e) tokenPresent postFor nowIso) st).ok
          = true ∧
      (routeGET q xdebug
        (getEventsFresh now (some c) (Except.error e) tokenPresent postFor nowIso) st).error
          = none ∧
      (routeGET q xdebug
        (getEventsFresh now (some c) (Except.error e) tokenPresent postFor nowIso) st).stale
          = true ∧
      (routeGET q xdebug
        (getEventsFresh now (some c) (Except.error e) tokenPresent postFor nowIso) st).events
          = applyFilterSort c.events q) := by
  have hmain : getEventsFresh now (some c) (Except.error e) tokenPresent postFor nowIso =
      Except.ok (⟨c, true, some ("Serving stale data: " ++ e)⟩, some c) := by
    rw [getEventsFresh, if_neg hstale]; rfl
  refine ⟨hmain, ?_, ?_⟩
  · intro h
    have hl := congrArg String.length h
    rw [String.length_append] at hl
    have h20 : ("Serving stale data: " : String).length = 20 := rfl
    have h0 : ("" : String).length = 0 := rfl
    rw [h20, h0] at hl
    omega
  · intro q xdebug st
    rw [hmain]
    exact ⟨rfl, rfl, rfl, rfl⟩

/-- Witness for C1 at a concrete expired cache and failing refresh. -/
theorem getEventsFresh_staleFallback_witness :
    getEventsFresh 200000 (some ⟨0, [evA8d20]⟩) (Except.error "boom") false
        (fun _ => none) "" =
      Except.ok (⟨⟨0, [evA8d20]⟩, true, some ("Serving stale data: " ++ "boom")⟩,
        some ⟨0, [evA8d20]⟩) :=
  (getEventsFresh_staleFallback 200000 ⟨0, [evA8d20]⟩ "boom" false (fun _ => none) ""
    (by decide)).1

/-- C2 counterexample: a raw delay of 4.9 minutes is NOT discarded — it is
rounded up to the 5-minute bucket (`Math.round(4.9/5)*5 = 5`) and kept,
because the guard discards only bucketed results strictly below 5. -/
theorem roundTo5Min_raw49_kept :
    (294 - 0 : ℚ) / 60 = 4.9 ∧
    roundTo5Min 4.9 = 5 ∧
    computeJamCandidates [{ siteId := some "site1", curDur := some 294, refDur := some 0 }] =
      [{ siteId := "site1", curDur := 294, refDur := 0, delayMin := 5 }] := by
  refine ⟨by with_unfolding_all decide, by with_unfolding_all decide, ?_⟩
  with_unfolding_all decide

/-- C2 (amended): a site measurement with present (finite) current and
reference travel times yields a jam candidate exactly when
`round(((cur - ref)/60)/5)*5`, the raw delay rounded to the nearest
multiple of 5, is at least 5 — candidates bucketed below 5 are discarded;
raw 12.4 buckets to 10, raw 13.0 buckets to 15, and raw 4.9 buckets to 5
and is therefore kept (not discarded). -/
theorem computeJamCandidates_spec :
    (∀ (sms : List SiteMeasurement) (id : String) (cur ref : ℚ) (d : ℤ),
      (⟨id, cur, ref, d⟩ : JamCandidate) ∈ computeJamCandidates sms ↔
        ((⟨some id, some cur, some ref⟩ : SiteMeasurement) ∈ sms ∧
          d = roundTo5Min ((cur - ref) / 60) ∧ 5 ≤ d)) ∧
    (∀ x : ℚ, roundTo5Min x = jsRound (x / 5) * 5) ∧
    roundTo5Min 12.4 = 10 ∧ roundTo5Min 13 = 15 ∧ roundTo5Min 4.9 = 5 := by
  refine ⟨?_, fun x => rfl, by with_unfolding_all decide,
    by with_unfolding_all decide, by with_unfolding_all decide⟩
  intro sms id cur ref d
  constructor
  · intro h
    rw [computeJamCandidates, List.mem_filterMap] at h
    obtain ⟨a, ha, hfa⟩ := h
    obtain ⟨sid, scur, sref⟩ := a
    rcases sid with _ | id0 <;> rcases scur with _ | cur0 <;> rcases sref with _ | ref0 <;>
      try (exact Option.noConfusion hfa)
    dsimp only at hfa
    by_cases hlt : roundTo5Min ((cur0 - ref0) / 60) < 5
    · rw [if_pos hlt] at hfa
      exact absurd hfa (by simp)
    · rw [if_neg hlt] at hfa
      have heq := Option.some.inj hfa
      have h1 : id0 = id := congrArg JamCandidate.siteId heq
      have h2 : cur0 = cur := congrArg JamCandidate.curDur heq
      have h3 : ref0 = ref := congrArg JamCandidate.refDur heq
      have h4 : roundTo5Min ((cur0 - ref0) / 60) = d := congrArg JamCandidate.delayMin heq
      subst h1; subst h2; subst h3
      exact ⟨ha, h4.symm, by omega⟩
  · rintro ⟨hmem, rfl, hge⟩
    rw [computeJamCandidates, List.mem_filterMap]
    refine ⟨⟨some id, some cur, some ref⟩, hmem, ?_⟩
    dsimp only
    rw [if_neg (by omega)]

/-- Witness for C2 (amended) at a concrete kept and a concrete discarded
measurement. -/
theorem computeJamCandidates_spec_witness :
    (⟨"s", 300, 0, 5⟩ : JamCandidate) ∈
      computeJamCandidates [⟨some "s", some 300, some 0⟩] ∧
    ¬ ((⟨"t", 60, 0, roundTo5Min 1⟩ : JamCandidate) ∈
      computeJamCandidates [⟨some "t", some 60, some 0⟩]) := by
  have h := computeJamCandidates_spec
  constructor
  · exact (h.1 [⟨some "s", some 300, some 0⟩] "s" 300 0 5).mpr
      ⟨by simp, by with_unfolding_all decide, by decide⟩
  · intro hmem
    have := ((h.1 [⟨some "t", some 60, some 0⟩] "t" 60 0 (roundTo5Min 1)).mp hmem).2.2
    have h1 : roundTo5Min 1 = 0 := by with_unfolding_all decide
    omega

/-- C10: if the travel-time jam pipeline fails, the combined primary-feed
ingestion still succeeds with exactly the incident-feed events (empty jam
contribution) — indistinguishable from a successful jam pipeline returning
no jams — and the result is installed as a fresh snapshot with stale=false
and no warning. -/
theorem fetchNdwEvents_jamFailureSilent (e : String) (incidents : List TrafficEvent)
    (now : ℤ) (postFor : String → Option ExternalPost) (nowIso : String) :
    fetchNdwEvents (Except.error e) (Except.ok incidents) = Except.ok incidents ∧
    (∀ r : Except String (List TrafficEvent),
      fetchNdwEvents (Except.error e) r = fetchNdwEvents (Except.ok []) r) ∧
    getEventsFresh now none (Except.ok incidents) false postFor nowIso =
      Except.ok (⟨⟨now, incidents⟩, false, none⟩, some ⟨now, incidents⟩) ∧
    (∀ c : Cache, ¬ (now - c.fetchedAt < CACHE_TTL_MS) →
      getEventsFresh now (some c) (Except.ok incidents) false postFor nowIso =
        Except.ok (⟨⟨now, incidents⟩, false, none⟩, some ⟨now, incidents⟩)) := by
  refine ⟨by simp [fetchNdwEvents], fun r => by cases r <;> rfl, rfl, ?_⟩
  intro c hc
  rw [getEventsFresh, if_neg hc]
  rfl

/-- Witness for C10 at a concrete expired cache. -/
theorem fetchNdwEvents_jamFailureSilent_witness :
    getEventsFresh 200000 (some ⟨0, []⟩) (Except.ok [evA8d20]) false
        (fun _ => none) "" =
      Except.ok (⟨⟨200000, [evA8d20]⟩, false, none⟩, some ⟨200000, [evA8d20]⟩) :=
  (fetchNdwEvents_jamFailureSilent "x" [evA8d20] 200000 (fun _ => none) "").2.2.2
    ⟨0, []⟩ (by decide)

/-- C5: duration extraction converts a duration value to whole minutes:
the ISO-8601-style string PT1H5M yields 65 minutes, PT90S yields 2 minutes
(seconds rounded to the nearest minute), and a bare numeric duration of
300 seconds yields 5 minutes. -/
theorem parseDelayMin_examples :
    parseDelayMin (.vObj [("delayTime", .vObj [("duration", .vStr "PT1H5M")])]) =
      some 65 ∧
    parseDelayMin (.vObj [("delayTime", .vObj [("duration", .vStr "PT90S")])]) =
      some 2 ∧
    parseDelayMin (.vObj [("delay", .vObj [("duration", .vNum 300)])]) = some 5 := by
  refine ⟨?_, ?_, ?_⟩ <;> with_unfolding_all decide

theorem runStream_append_of_done (ids : List String) (vildRoadMap : ℚ → Option String)
    (pre : List (List SiteRec)) (st : ResolverState) (hne : st.remaining ≠ [])
    (hdone : (runStream ids vildRoadMap st pre).remaining = [])
    (post : List (List SiteRec)) :
    runStream ids vildRoadMap st (pre ++ post) = runStream ids vildRoadMap st pre ∧
    chunksConsumed ids vildRoadMap st (pre ++ post) =
      chunksConsumed ids vildRoadMap st pre := by
  induction pre generalizing st with
  | nil =>
    rw [runStream] at hdone
    exact absurd hdone hne
  | cons c rest ih =>
    rw [List.cons_append, runStream, runStream, chunksConsumed, chunksConsumed]
    rw [runStream] at hdone
    by_cases h2 : (processChunk ids vildRoadMap st c).remaining.isEmpty
    · rw [if_pos h2, if_pos h2, if_pos h2, if_pos h2]
      exact ⟨rfl, rfl⟩
    · rw [if_neg h2, if_neg h2, if_neg h2, if_neg h2]
      rw [if_neg h2] at hdone
      have hne2 : (processChunk ids vildRoadMap st c).remaining ≠ [] := by
        intro hnil
        exact h2 (by rw [hnil]; rfl)
      have hih := ih (processChunk ids vildRoadMap st c) hne2 hdone
      exact ⟨hih.1, by rw [hih.2]⟩

/-- C8: once the remaining-wanted set is empty — observed after the chunk
that emptied it — the streaming resolver reads no further chunk of the
byte stream: its result and its chunk-consumption count on `pre ++ post`
equal those on `pre` alone, for every continuation `post`; and an empty
wanted set short-circuits before any read. -/
theorem getMeasurementSitesFor_earlyAbort (ids : List String)
    (vildRoadMap : ℚ → Option String) (pre post : List (List SiteRec))
    (hids : ids ≠ [])
    (hdone : (runStream ids vildRoadMap ⟨[], ids⟩ pre).remaining = []) :
    runStream ids vildRoadMap ⟨[], ids⟩ (pre ++ post) =
      runStream ids vildRoadMap ⟨[], ids⟩ pre ∧
    chunksConsumed ids vildRoadMap ⟨[], ids⟩ (pre ++ post) =
      chunksConsumed ids vildRoadMap ⟨[], ids⟩ pre ∧
    getMeasurementSitesFor ids vildRoadMap (pre ++ post) =
      getMeasurementSitesFor ids vildRoadMap pre ∧
    (∀ chunks : List (List SiteRec), getMeasurementSitesFor [] vildRoadMap chunks = []) := by
  have h := runStream_append_of_done ids vildRoadMap pre ⟨[], ids⟩ hids hdone post
  refine ⟨h.1, h.2, ?_, fun chunks => rfl⟩
  unfold getMeasurementSitesFor
  have hne : ¬ (ids.isEmpty = true) := by
    intro hemp
    exact hids (List.isEmpty_iff.mp hemp)
  rw [if_neg hne, if_neg hne, h.1]

/-- Witness for C8: one wanted id resolved by the first chunk; the second
chunk is never consumed. -/
theorem getMeasurementSitesFor_earlyAbort_witness :
    chunksConsumed ["a"] (fun _ => none) ⟨[], ["a"]⟩
        ([[⟨"a", none, none⟩]] ++ [[⟨"b", none, none⟩]]) =
      chunksConsumed ["a"] (fun _ => none) ⟨[], ["a"]⟩ [[⟨"a", none, none⟩]] :=
  (getMeasurementSitesFor_earlyAbort ["a"] (fun _ => none) [[⟨"a", none, none⟩]]
    [[⟨"b", none, none⟩]] (by decide) (by with_unfolding_all decide)).2.1

theorem enrichOne_preserves (byRoad : List (String × ExternalPost)) (nowIso : String)
    (e : TrafficEvent) :
    (enrichOne byRoad nowIso e).id = e.id ∧
    (enrichOne byRoad nowIso e).category = e.category := by
  unfold enrichOne
  split
  · exact ⟨rfl, rfl⟩
  · split
    · exact ⟨rfl, rfl⟩
    · exact ⟨rfl, rfl⟩

theorem enrichEvents_preserves (tokenPresent : Bool) (events : List TrafficEvent)
    (postFor : String → Option ExternalPost) (nowIso : String) :
    (enrichEvents tokenPresent events postFor nowIso).length = events.length ∧
    (enrichEvents tokenPresent events postFor nowIso).map (fun e => e.id) =
      events.map (fun e => e.id) ∧
    (enrichEvents tokenPresent events postFor nowIso).map (fun e => e.category) =
      events.map (fun e => e.category) := by
  unfold enrichEvents
  split
  · dsimp only
    split
    · exact ⟨rfl, rfl, rfl⟩
    · refine ⟨List.length_map _ _, ?_, ?_⟩
      · rw [List.map_map]
        congr 1
        funext e
        exact (enrichOne_preserves _ nowIso e).1
      · rw [List.map_map]
        congr 1
        funext e
        exact (enrichOne_preserves _ nowIso e).2
  · exact ⟨rfl, rfl, rfl⟩

/-- C9: a failure inside the external-enrichment path never raises — the
call returns `none`, records the failure's timestamp and message in the
module state, and that record is readable only through `getXLastError`:
the primary response of a successful snapshot has ok=true and no error
whatever the enrichment state holds, exposes the record only through the
`xdebug` accessor field, and enrichment never changes the number, ids or
categories of the events. -/
theorem enrichmentFailure_isolated (roadCode : String) (now : ℤ) (msg : String)
    (dateParse : String → Option ℤ) (st : XState) (tok : String)
    (hshape : roadShapeTest (normalizeRoadCode roadCode) = true)
    (hmiss : lookupCacheEntry st.xCache (normalizeRoadCode roadCode) = none) :
    (fetchRwsExternalInfoForRoad (some tok) roadCode now (Except.error msg) dateParse
      st).1 = none ∧
    getXLastError
      (fetchRwsExternalInfoForRoad (some tok) roadCode now (Except.error msg) dateParse
        st).2 = some (now, msg) ∧
    (∀ (q : EventsQuery) (xdebug : Bool) (r : FreshResult) (store : Option Cache)
        (st2 : XState),
      (routeGET q xdebug (Except.ok (r, store)) st2).ok = true ∧
      (routeGET q xdebug (Except.ok (r, store)) st2).error = none ∧
      (routeGET q false (Except.ok (r, store)) st2).xDebug = none ∧
      (routeGET q true (Except.ok (r, store)) st2).xDebug = getXLastError st2) ∧
    (∀ (tokenPresent : Bool) (events : List TrafficEvent)
        (postFor : String → Option ExternalPost) (nowIso : String),
      (enrichEvents tokenPresent events postFor nowIso).length = events.length ∧
      (enrichEvents tokenPresent events postFor nowIso).map (fun e => e.id) =
        events.map (fun e => e.id) ∧
      (enrichEvents tokenPresent events postFor nowIso).map (fun e => e.category) =
        events.map (fun e => e.category)) := by
  have hfetch : fetchRwsExternalInfoForRoad (some tok) roadCode now (Except.error msg)
      dateParse st =
      (none, { xCache := setCacheEntry st.xCache (normalizeRoadCode roadCode) ⟨now, none⟩,
               lastError := some (now, msg) }) := by
    simp only [fetchRwsExternalInfoForRoad, hshape, Bool.not_true, Bool.false_eq_true,
      if_false, hmiss, xTryFetch]
  refine ⟨by rw [hfetch], by rw [hfetch]; rfl, ?_, ?_⟩
  · intro q xdebug r store st2
    exact ⟨rfl, rfl, rfl, rfl⟩
  · intro tokenPresent events postFor nowIso
    exact enrichEvents_preserves tokenPresent events postFor nowIso

/-- Witness for C9 at a concrete failing lookup. -/
theorem enrichmentFailure_isolated_witness :
    (fetchRwsExternalInfoForRoad (some "t") "A2" 0 (Except.error "boom") (fun _ => none)
      ⟨[], none⟩).1 = none ∧
    getXLastError
      (fetchRwsExternalInfoForRoad (some "t") "A2" 0 (Except.error "boom")
        (fun _ => none) ⟨[], none⟩).2 = some (0, "boom") := by
  have h := enrichmentFailure_isolated "A2" 0 "boom" (fun _ => none) ⟨[], none⟩ "t"
    (by with_unfolding_all decide) rfl
  exact ⟨h.1, h.2.1⟩

theorem jsRound_nonneg (q : ℚ) (h : 0 ≤ q) : 0 ≤ jsRound q := by
  unfold jsRound
  rw [Int.le_floor]
  push_cast
  linarith

/-- C7 counterexample: the scrape extractor emits, for a segment with raw
distance 1234 meters, an event whose lengthKm is 1.234 — more than one
decimal place, violating the claimed data-model bound. -/
theorem anwb_lengthKm_not_oneDecimal :
    fetchAnwbEvents "2024-01-01T00:00:00.000Z" [anwbSeg1234] = [anwbEvent1234] ∧
    anwbEvent1234.lengthKm = some (617 / 500) ∧
    ¬ oneDecimal (617 / 500) := by
  refine ⟨by with_unfolding_all decide, by with_unfolding_all decide, ?_⟩
  unfold oneDecimal
  with_unfolding_all decide

theorem mem_computeJamCandidates_delay (sms : List SiteMeasurement) (c : JamCandidate)
    (hc : c ∈ computeJamCandidates sms) : 5 ≤ c.delayMin := by
  rw [computeJamCandidates, List.mem_filterMap] at hc
  obtain ⟨a, -, hfa⟩ := hc
  obtain ⟨sid, scur, sref⟩ := a
  rcases sid with _ | id0 <;> rcases scur with _ | cur0 <;> rcases sref with _ | ref0 <;>
    try (exact Option.noConfusion hfa)
  dsimp only at hfa
  by_cases hlt : roundTo5Min ((cur0 - ref0) / 60) < 5
  · rw [if_pos hlt] at hfa
    exact Option.noConfusion hfa
  · rw [if_neg hlt] at hfa
    have heq := Option.some.inj hfa
    have h4 : roundTo5Min ((cur0 - ref0) / 60) = c.delayMin :=
      congrArg JamCandidate.delayMin heq
    omega

theorem guessLength_bounds (roadCode : String) (refSeconds : ℚ) :
    1 / 10 ≤ guessLengthKmFromReference roadCode refSeconds ∧
    oneDecimal (guessLengthKmFromReference roadCode refSeconds) := by
  unfold guessLengthKmFromReference oneDecimal
  refine ⟨le_max_left _ _, ?_⟩
  rw [max_mul_of_nonneg _ _ (by norm_num : (0:ℚ) ≤ 10)]
  rw [div_mul_cancel₀ _ (by norm_num : (10:ℚ) ≠ 0)]
  rw [div_mul_cancel₀ _ (by norm_num : (10:ℚ) ≠ 0)]
  rcases max_choice (1 : ℚ)
      ((jsRound (refSeconds / 3600 * (if roadCode.startsWith "A" then 100 else 80) * 10) :
        ℚ)) with h | h <;> rw [h]
  · exact Rat.den_one
  · exact Rat.den_intCast _

theorem parseLengthKm_oneDecimal (sr : DValue) (l : ℚ)
    (h : parseLengthKm sr = some l) : oneDecimal l := by
  unfold parseLengthKm at h
  split at h
  · exact Option.noConfusion h
  · split at h
    · exact Option.noConfusion h
    · have := Option.some.inj h
      rw [← this]
      unfold oneDecimal
      rw [div_mul_cancel₀ _ (by norm_num : (10:ℚ) ≠ 0)]
      exact Rat.den_intCast _

theorem parseLengthKm_nonneg (sr : DValue) (q l : ℚ)
    (hm : datexMetersNum sr = some q) (hq : 0 ≤ q)
    (h : parseLengthKm sr = some l) : 0 ≤ l := by
  unfold parseLengthKm at h
  rw [hm] at h
  dsimp only at h
  split at h
  · exact Option.noConfusion h
  · have := Option.some.inj h
    rw [← this]
    have hr : 0 ≤ jsRound (q / 1000 * 10) := jsRound_nonneg _ (by positivity)
    have hrq : (0:ℚ) ≤ (jsRound (q / 1000 * 10) : ℚ) := by exact_mod_cast hr
    positivity

theorem nat_nat_int_isInt (a b : ℕ) (k : ℤ) :
    isIntQ ((a : ℚ) * 60 + (b : ℚ) + (k : ℚ)) := by
  unfold isIntQ
  rw [show (a : ℚ) * 60 + (b : ℚ) + (k : ℚ) = (((a : ℤ) * 60 + (b : ℤ) + k : ℤ) : ℚ) by
    push_cast; ring]
  exact Rat.den_intCast _

theorem nat_nat_int_one_le (a b : ℕ) (k : ℤ) (hk : 0 ≤ k)
    (hne : ¬((a : ℚ) * 60 + (b : ℚ) + (k : ℚ) = 0)) :
    1 ≤ (a : ℚ) * 60 + (b : ℚ) + (k : ℚ) := by
  have hcast : (a : ℚ) * 60 + (b : ℚ) + (k : ℚ) =
      (((a : ℤ) * 60 + (b : ℤ) + k : ℤ) : ℚ) := by
    push_cast; ring
  rw [hcast] at hne ⊢
  have h0 : (0 : ℤ) ≤ (a : ℤ) * 60 + (b : ℤ) + k := by positivity
  have hne2 : ((a : ℤ) * 60 + (b : ℤ) + k) ≠ 0 := by
    intro hz
    apply hne
    rw [hz]
    norm_num
  have h1 : (1 : ℤ) ≤ (a : ℤ) * 60 + (b : ℤ) + k := by omega
  exact_mod_cast h1

theorem parseDelayMin_int (sr : DValue) (d : ℚ)
    (h : parseDelayMin sr = some d) : isIntQ d := by
  unfold parseDelayMin at h
  split at h
  · have := Option.some.inj h
    rw [← this]
    exact Rat.den_intCast _
  · split at h
    · exact Option.noConfusion h
    · dsimp only at h
      split at h
      · exact Option.noConfusion h
      · have := Option.some.inj h
        rw [← this]
        exact nat_nat_int_isInt _ _ _
  · exact Option.noConfusion h

theorem parseDelayMin_str_pos (sr : DValue) (s : String) (d : ℚ)
    (hdur : datexDelayDuration sr = some (.vStr s))
    (h : parseDelayMin sr = some d) : 1 ≤ d := by
  unfold parseDelayMin at h
  rw [hdur] at h
  dsimp only at h
  split at h
  · exact Option.noConfusion h
  · split at h
    · exact Option.noConfusion h
    · rename_i htot
      have hd := Option.some.inj h
      rw [← hd]
      exact nat_nat_int_one_le _ _ _ (jsRound_nonneg _ (by positivity)) htot

theorem parseDelayMin_num_nonneg (sr : DValue) (q d : ℚ)
    (hdur : datexDelayDuration sr = some (.vNum q)) (hq : 0 ≤ q)
    (h : parseDelayMin sr = some d) : 0 ≤ d := by
  unfold parseDelayMin at h
  rw [hdur] at h
  dsimp only at h
  have := Option.some.inj h
  rw [← this]
  have hr : 0 ≤ jsRound (q / 60) := jsRound_nonneg _ (by positivity)
  exact_mod_cast hr

theorem datexRecordEvent_fields (roadMap : ℚ → Option String) (feedHint : FeedHint)
    (pub url sitId : String) (sr : DValue) (e : TrafficEvent)
    (h : datexRecordEvent roadMap feedHint pub url sitId sr = some e) :
    e.lengthKm = parseLengthKm sr ∧ e.delayMin = parseDelayMin sr := by
  unfold datexRecordEvent at h
  dsimp only at h
  split at h
  · exact Option.noConfusion h
  · split at h
    · exact Option.noConfusion h
    · split at h
      · exact Option.noConfusion h
      · have := Option.some.inj h
        rw [← this]
        exact ⟨rfl, rfl⟩

/-- C7 (amended): travel-time jam events always satisfy the bounds —
`delayMin` an integer ≥ 5, `lengthKm ≥ 0.1` with one decimal place.
DATEX events always carry a one-decimal `lengthKm` and an integer
`delayMin`; a string duration yields `delayMin ≥ 1`, and the values are
nonnegative whenever the upstream numeric duration/distance is
nonnegative (a negative upstream value passes through sign-unchecked).
The scrape path guarantees no such bound: raw distance 1234 meters yields
`lengthKm = 1.234`, which has three decimal places. -/
theorem event_numeric_bounds :
    (∀ (sms : List SiteMeasurement) (siteInfo : String → Option SiteInfo)
        (pub url : String) (e : TrafficEvent),
      e ∈ fetchNdwMeasuredJamsFromTravelTime sms siteInfo pub url →
      ∃ d l, e.delayMin = some d ∧ 5 ≤ d ∧ isIntQ d ∧
        e.lengthKm = some l ∧ 1 / 10 ≤ l ∧ oneDecimal l) ∧
    (∀ (roadMap : ℚ → Option String) (feedHint : FeedHint) (pub url sitId : String)
        (sr : DValue) (e : TrafficEvent),
      datexRecordEvent roadMap feedHint pub url sitId sr = some e →
      (∀ l, e.lengthKm = some l → oneDecimal l) ∧
      (∀ d, e.delayMin = some d → isIntQ d) ∧
      (∀ s d, datexDelayDuration sr = some (.vStr s) → e.delayMin = some d → 1 ≤ d) ∧
      (∀ q d, datexDelayDuration sr = some (.vNum q) → 0 ≤ q → e.delayMin = some d →
        0 ≤ d) ∧
      (∀ q l, datexMetersNum sr = some q → 0 ≤ q → e.lengthKm = some l → 0 ≤ l)) ∧
    (fetchAnwbEvents "2024-01-01T00:00:00.000Z" [anwbSeg1234] = [anwbEvent1234] ∧
      anwbEvent1234.lengthKm = some (617 / 500) ∧ ¬ oneDecimal (617 / 500)) := by
  refine ⟨?_, ?_, ?_⟩
  · intro sms siteInfo pub url e he
    rw [fetchNdwMeasuredJamsFromTravelTime, traveltimeEventsOf, List.mem_filterMap] at he
    obtain ⟨c, hc, hfc⟩ := he
    have hc5 : 5 ≤ c.delayMin := by
      apply mem_computeJamCandidates_delay sms c
      have h1 : c ∈ (computeJamCandidates sms).mergeSort
          (fun a b => decide ((b.delayMin - a.delayMin : ℤ) ≤ 0)) :=
        List.mem_of_mem_take (by simpa [topJams] using hc)
      exact List.mem_mergeSort.mp h1
    dsimp only at hfc
    split at hfc
    · exact Option.noConfusion hfc
    · split at hfc
      · exact Option.noConfusion hfc
      · have := Option.some.inj hfc
        rw [← this]
        refine ⟨(c.delayMin : ℚ), guessLengthKmFromReference _ c.refDur,
          rfl, by exact_mod_cast hc5, Rat.den_intCast _, rfl,
          (guessLength_bounds _ c.refDur).1, (guessLength_bounds _ c.refDur).2⟩
  · intro roadMap feedHint pub url sitId sr e h
    have hf := datexRecordEvent_fields roadMap feedHint pub url sitId sr e h
    refine ⟨?_, ?_, ?_, ?_, ?_⟩
    · intro l hl
      exact parseLengthKm_oneDecimal sr l (hf.1 ▸ hl)
    · intro d hd
      exact parseDelayMin_int sr d (hf.2 ▸ hd)
    · intro s d hdur hd
      exact parseDelayMin_str_pos sr s d hdur (hf.2 ▸ hd)
    · intro q d hdur hq hd
      exact parseDelayMin_num_nonneg sr q d hdur hq (hf.2 ▸ hd)
    · intro q l hm hq hl
      exact parseLengthKm_nonneg sr q l hm hq (hf.1 ▸ hl)
  · refine ⟨by with_unfolding_all decide, by with_unfolding_all decide, ?_⟩
    unfold oneDecimal
    with_unfolding_all decide

/-- Witness for C7 (amended): a concrete travel-time event satisfies the
bounds; a concrete DATEX record with a string duration yields an integer
positive delay. -/
theorem event_numeric_bounds_witness :
    (∃ d l,
      TrafficEvent.delayMin
          { id := "NDW:traveltime:s", roadType := RoadType.A, roadNumber := 2,
            roadCode := "A2", category := EventCategory.jam,
            eventTypeRaw := some "MeasuredTravelTime", locationText := none,
            lengthKm := some (guessLengthKmFromReference "A2" 300),
            delayMin := some 5, lastUpdated := "p", sourceUrl := "u" } = some d ∧
        5 ≤ d ∧ isIntQ d ∧
      TrafficEvent.lengthKm
          { id := "NDW:traveltime:s", roadType := RoadType.A, roadNumber := 2,
            roadCode := "A2", category := EventCategory.jam,
            eventTypeRaw := some "MeasuredTravelTime", locationText := none,
            lengthKm := some (guessLengthKmFromReference "A2" 300),
            delayMin := some 5, lastUpdated := "p", sourceUrl := "u" } = some l ∧
        1 / 10 ≤ l ∧ oneDecimal l) := by
  have h := event_numeric_bounds
  apply h.1 [⟨some "s", some 600, some 300⟩]
    (fun _ => some ⟨some "A2", none⟩) "p" "u"
  with_unfolding_all decide

end NlVerkeer
